import Mathlib

/-!
Verification of the civogo volume and firewall modules (volume.go).

The Go source is shallowly embedded: each exported operation becomes a pure
Lean function.  The external collaborators (HTTP transport, JSON decoding,
the Kubernetes-cluster lookup, error wrapping) are passed in as explicit
parameters or modelled from the specification, as noted on each definition.
Go slices are modelled as `Option (List α)` so that the distinction between
a nil slice and an allocated empty slice is preserved.
-/

namespace Civogo

/-- Go's strings.Contains search over character sequences: `containsSub sub s`
is true when `sub` occurs contiguously inside `s`. -/
def containsSub (sub : List Char) : List Char → Bool
  | [] => sub.isEmpty
  | a :: t => sub.isPrefixOf (a :: t) || containsSub sub t

/-- strings.Contains(s, sub): whether `sub` is within `s`. -/
def strContains (s sub : String) : Bool :=
  containsSub sub.data s.data

/-- A Go slice value: `none` is a nil slice, `some xs` an allocated slice
holding `xs`. -/
abbrev GoSlice (α : Type) := Option (List α)

/-- make([]T, 0): an allocated, non-nil, empty slice. -/
def goMake {α : Type} : GoSlice α := some []

/-- var x []T: the nil slice. -/
def goNil {α : Type} : GoSlice α := none

/-- Go append: appending to a nil slice allocates. -/
def goAppend {α : Type} : GoSlice α → α → GoSlice α
  | none, x => some [x]
  | some xs, x => some (xs ++ [x])

/-- The elements a Go range-loop sees: a nil slice iterates over nothing. -/
def goElems {α : Type} : GoSlice α → List α
  | none => []
  | some xs => xs

/-- The slice built by appending each element of `l` in order to a nil slice:
nil when `l` is empty, allocated otherwise. -/
def goFromList {α : Type} : List α → GoSlice α
  | [] => none
  | x :: xs => some (x :: xs)

/-- The error taxonomy of the client (spec section 7).  The constant wrapped
errors of the generic client (MultipleMatchesError.wrap etc.) are modelled by
their category tags. -/
inductive CivoError where
  | MultipleMatchesError
  | ZeroMatchesError
  | NotFoundError
  | ValidationError (message : String)
  | DecodeError
  | RequestError
deriving DecidableEq, Repr

/-- Modelled from the spec: `decodeError`, the error-wrapping helper of the
external generic client; errors are "wrapped and passed through", so the
category is preserved. -/
def decodeError (e : CivoError) : CivoError := e

/-- Volume, as in volume.go (time.Time modelled as an abstract timestamp). -/
structure Volume where
  ID : String
  Name : String
  InstanceID : String
  ClusterID : String
  NetworkID : String
  MountPoint : String
  Status : String
  VolumeType : String
  SizeGigabytes : Int
  Bootable : Bool
  CreatedAt : Nat
deriving DecidableEq, Repr

/-- The Go zero value Volume{}, the initial value of `result` in FindVolume. -/
def Volume.empty : Volume :=
  { ID := "", Name := "", InstanceID := "", ClusterID := "", NetworkID := ""
    MountPoint := "", Status := "", VolumeType := "", SizeGigabytes := 0
    Bootable := false, CreatedAt := 0 }

/-- Firewall, as in the firewall module. -/
structure Firewall where
  ID : String
  Name : String
  RulesCount : String
  InstancesCount : String
  Region : String
deriving DecidableEq, Repr

/-- Modelled from the spec: a JSON body for a list endpoint as handed to the
external decoding collaborator — a JSON array of decoded elements, a JSON
null, or a malformed body. -/
inductive ListBody (α : Type) where
  | array (elems : List α)
  | jsonNull
  | malformed
deriving DecidableEq, Repr

/-- Modelled from the spec: json.Decode into a Go slice variable.  Per the
documented encoding/json semantics, a JSON array replaces the slice with the
decoded elements (an empty array with an allocated empty slice), a JSON null
sets the slice to nil, and a malformed body fails. -/
def jsonDecodeSlice {α : Type} : ListBody α → GoSlice α → Except CivoError (GoSlice α)
  | .array es, _ => .ok (some es)
  | .jsonNull, _ => .ok goNil
  | .malformed, _ => .error .DecodeError

/-- ListVolumes, parameterized by the transport result of
SendGetRequest("/v2/volumes"): decodes into make([]Volume, 0). -/
def ListVolumes (resp : Except CivoError (ListBody Volume)) :
    Except CivoError (GoSlice Volume) :=
  match resp with
  | .error err => .error (decodeError err)
  | .ok body =>
    match jsonDecodeSlice body (goMake : GoSlice Volume) with
    | .error err => .error err
    | .ok volumes => .ok volumes

/-- ListFirewalls, parameterized by the transport result of
SendGetRequest("/v2/firewalls"): decodes into make([]Firewall, 0); the
transport error is passed through unwrapped. -/
def ListFirewalls (resp : Except CivoError (ListBody Firewall)) :
    Except CivoError (GoSlice Firewall) :=
  match resp with
  | .error err => .error err
  | .ok body =>
    match jsonDecodeSlice body (goMake : GoSlice Firewall) with
    | .error err => .error err
    | .ok firewalls => .ok firewalls

/-- The exact-match test of FindVolume: value.Name == search || value.ID == search. -/
def isVolumeExactMatch (search : String) (value : Volume) : Bool :=
  value.Name == search || value.ID == search

/-- The substring test of FindVolume:
strings.Contains(value.Name, search) || strings.Contains(value.ID, search). -/
def isVolumePartialMatch (search : String) (value : Volume) : Bool :=
  strContains value.Name search || strContains value.ID search

/-- The scan loop of FindVolume over (exactMatch, partialMatchesCount, result). -/
def findVolumeScan (search : String) :
    List Volume → Bool × Nat × Volume → Bool × Nat × Volume
  | [], st => st
  | value :: rest, (exactMatch, count, result) =>
    if isVolumeExactMatch search value then
      findVolumeScan search rest (true, count, value)
    else if isVolumePartialMatch search value then
      if exactMatch then
        findVolumeScan search rest (exactMatch, count, result)
      else
        findVolumeScan search rest (exactMatch, count + 1, value)
    else
      findVolumeScan search rest (exactMatch, count, result)

/-- FindVolume, over the listing obtained from a successful ListVolumes. -/
def FindVolume (volumes : List Volume) (search : String) : Except CivoError Volume :=
  let st := findVolumeScan search volumes (false, 0, Volume.empty)
  if st.1 || st.2.1 == 1 then .ok st.2.2
  else if st.2.1 > 1 then .error .MultipleMatchesError
  else .error .ZeroMatchesError

/-- The substring test of FindFirewall:
strings.Contains(firewall.ID, search) || strings.Contains(firewall.Name, search). -/
def isFirewallMatch (search : String) (firewall : Firewall) : Bool :=
  strContains firewall.ID search || strContains firewall.Name search

/-- The scan loop of FindFirewall; the `found` index is modelled by carrying
the firewall recorded at that index. -/
def findFirewallLoop (search : String) :
    List Firewall → Option Firewall → Except CivoError (Option Firewall)
  | [], found => .ok found
  | firewall :: rest, found =>
    if isFirewallMatch search firewall then
      match found with
      | some _ => .error .MultipleMatchesError
      | none => findFirewallLoop search rest (some firewall)
    else
      findFirewallLoop search rest found

/-- FindFirewall, over the listing obtained from a successful ListFirewalls. -/
def FindFirewall (firewalls : List Firewall) (search : String) :
    Except CivoError Firewall :=
  match findFirewallLoop search firewalls none with
  | .error e => .error e
  | .ok none => .error .ZeroMatchesError
  | .ok (some firewall) => .ok firewall

/-- Modelled from the spec: the external Kubernetes-cluster collaborator's
resource; only its id is consulted by the volume module. -/
structure KubernetesCluster where
  ID : String
deriving DecidableEq, Repr

/-- findString, as in volume.go: linear membership scan. -/
def findString : List String → String → Bool
  | [], _ => false
  | item :: rest, val => if item == val then true else findString rest val

/-- The append loop of ListDanglingVolumes over the allocated result slice. -/
def danglingScan (clusterIDs : List String) :
    List Volume → GoSlice Volume → GoSlice Volume
  | [], acc => acc
  | volume :: rest, acc =>
    if volume.ClusterID != "" then
      if !(findString clusterIDs volume.ClusterID) then
        danglingScan clusterIDs rest (goAppend acc volume)
      else
        danglingScan clusterIDs rest acc
    else
      danglingScan clusterIDs rest acc

/-- ListDanglingVolumes, over the cluster items and volume listing obtained
from the two successful list calls; the result starts as make([]Volume, 0). -/
def ListDanglingVolumes (clusters : List KubernetesCluster) (volumes : List Volume) :
    GoSlice Volume :=
  let clusterIDs := clusters.map (fun cluster => cluster.ID)
  danglingScan clusterIDs volumes goMake

/-- The append loop of ListVolumesForCluster; `vols` starts as a nil slice. -/
def clusterVolumesScan (cluster : KubernetesCluster) :
    List Volume → GoSlice Volume → GoSlice Volume
  | [], vols => vols
  | vol :: rest, vols =>
    if vol.ClusterID != "" then
      if cluster.ID == vol.ClusterID then
        clusterVolumesScan cluster rest (goAppend vols vol)
      else
        clusterVolumesScan cluster rest vols
    else
      clusterVolumesScan cluster rest vols

/-- ListVolumesForCluster, parameterized by the result of the external
FindKubernetesCluster collaborator and by the result of ListVolumes. -/
def ListVolumesForCluster (clusterResult : Except CivoError KubernetesCluster)
    (volumesResult : Except CivoError (GoSlice Volume)) :
    Except CivoError (GoSlice Volume) :=
  match clusterResult with
  | .error err => .error err
  | .ok cluster =>
    match volumesResult with
    | .error err => .error (decodeError err)
    | .ok volumes => .ok (clusterVolumesScan cluster (goElems volumes) goNil)

/-- An HTTP method of the generic transport. -/
inductive Method where
  | GET
  | POST
  | PUT
  | DELETE
deriving DecidableEq, Repr

/-- A request handed to the generic transport collaborator. -/
structure Request where
  method : Method
  path : String
deriving DecidableEq, Repr

/-- Modelled from the spec: the generic simple acknowledgment payload
(result string plus optional id/name) returned by mutating calls. -/
structure SimpleResponse where
  ID : String
  Name : String
  Result : String
deriving DecidableEq, Repr

/-- Modelled from the spec: a response body for a simple-acknowledgment
endpoint, as handed to DecodeSimpleResponse. -/
inductive SimpleBody where
  | obj (response : SimpleResponse)
  | malformed
deriving DecidableEq, Repr

/-- Modelled from the spec: DecodeSimpleResponse, the decoding helper of the
external generic client. -/
def DecodeSimpleResponse : SimpleBody → Except CivoError SimpleResponse
  | .obj response => .ok response
  | .malformed => .error .DecodeError

/-- DeleteVolume, parameterized by the transport collaborator; the issued
requests are returned alongside the result. -/
def DeleteVolume (send : Request → Except CivoError SimpleBody) (id : String) :
    List Request × Except CivoError SimpleResponse :=
  let req : Request := { method := .DELETE, path := "/v2/volumes/" ++ id }
  ([req],
    match send req with
    | .error err => .error (decodeError err)
    | .ok resp => DecodeSimpleResponse resp)

/-- DeleteVolumeAndAllSnapshot, parameterized by the transport collaborator;
the issued requests are returned alongside the result. -/
def DeleteVolumeAndAllSnapshot (send : Request → Except CivoError SimpleBody)
    (volumeID : String) : List Request × Except CivoError SimpleResponse :=
  let req : Request :=
    { method := .DELETE, path := "/v2/volumes/" ++ volumeID ++ "?delete_snapshot=true" }
  ([req],
    match send req with
    | .error err => .error (decodeError err)
    | .ok resp => DecodeSimpleResponse resp)

/-- FirewallRule, as in the firewall module. -/
structure FirewallRule where
  ID : String
  FirewallID : String
  Protocol : String
  StartPort : String
  EndPort : String
  Cidr : List String
  Direction : String
  Label : String
deriving DecidableEq, Repr

/-- FirewallRuleConfig, as in the firewall module. -/
structure FirewallRuleConfig where
  FirewallID : String
  Protocol : String
  StartPort : String
  EndPort : String
  Cidr : List String
  Direction : String
  Label : String
deriving DecidableEq, Repr

/-- Modelled from the spec: a response body for the create-rule endpoint. -/
inductive RuleBody where
  | obj (rule : FirewallRule)
  | malformed
deriving DecidableEq, Repr

/-- Modelled from the spec: json.Decode into a FirewallRule value. -/
def jsonDecodeRule : RuleBody → Except CivoError FirewallRule
  | .obj rule => .ok rule
  | .malformed => .error .DecodeError

/-- NewFirewallRule, parameterized by the transport collaborator; the issued
requests are returned alongside the result.  The empty-id check precedes any
use of the transport. -/
def NewFirewallRule (send : Request → Except CivoError RuleBody)
    (r : FirewallRuleConfig) : List Request × Except CivoError FirewallRule :=
  if r.FirewallID.length == 0 then
    ([], .error (.ValidationError "the firewall ID is empty"))
  else
    let req : Request := { method := .POST, path := "/v2/firewalls/" ++ r.FirewallID ++ "/rules" }
    ([req],
      match send req with
      | .error err => .error err
      | .ok resp => jsonDecodeRule resp)

deriving instance DecidableEq for Except

/-! ### Helper lemmas -/

theorem strContains_empty_sub (s : String) : strContains s "" = true := by
  show containsSub [] s.data = true
  induction s.data with
  | nil => rfl
  | cons a t ih => simp [containsSub, List.isPrefixOf]

theorem getLast?_cons_eq (a : α) (l : List α) :
    (a :: l).getLast? = some (l.getLastD a) := by
  induction l generalizing a with
  | nil => rfl
  | cons b l ih => rw [List.getLast?_cons_cons, ih b, List.getLastD_cons]

theorem findString_eq_true_iff (slice : List String) (val : String) :
    findString slice val = true ↔ val ∈ slice := by
  induction slice with
  | nil => simp [findString]
  | cons item rest ih =>
    by_cases h : item = val
    · simp [findString, h]
    · have : (item == val) = false := beq_false_of_ne h
      simp [findString, this, ih, Ne.symm h]

theorem findVolumeScan_cons_exact (search : String) (v : Volume) (rest : List Volume)
    (e : Bool) (c : Nat) (r : Volume) (he : isVolumeExactMatch search v = true) :
    findVolumeScan search (v :: rest) (e, c, r)
      = findVolumeScan search rest (true, c, v) := by
  simp [findVolumeScan, he]

theorem findVolumeScan_cons_sub (search : String) (v : Volume) (rest : List Volume)
    (c : Nat) (r : Volume) (he : isVolumeExactMatch search v = false)
    (hp : isVolumePartialMatch search v = true) :
    findVolumeScan search (v :: rest) (true, c, r) = findVolumeScan search rest (true, c, r)
    ∧ findVolumeScan search (v :: rest) (false, c, r)
        = findVolumeScan search rest (false, c + 1, v) := by
  constructor <;> simp [findVolumeScan, he, hp]

theorem findVolumeScan_cons_none (search : String) (v : Volume) (rest : List Volume)
    (e : Bool) (c : Nat) (r : Volume) (he : isVolumeExactMatch search v = false)
    (hp : isVolumePartialMatch search v = false) :
    findVolumeScan search (v :: rest) (e, c, r) = findVolumeScan search rest (e, c, r) := by
  simp [findVolumeScan, he, hp]

theorem findVolumeScan_exact_seen (search : String) (vs : List Volume) :
    ∀ (c : Nat) (r : Volume),
      findVolumeScan search vs (true, c, r)
        = (true, c, (vs.filter (isVolumeExactMatch search)).getLastD r) := by
  induction vs with
  | nil => intro c r; rfl
  | cons v vs ih =>
    intro c r
    cases he : isVolumeExactMatch search v with
    | true =>
      rw [findVolumeScan_cons_exact search v vs true c r he, ih c v,
        List.filter_cons_of_pos he, List.getLastD_cons]
    | false =>
      rw [List.filter_cons_of_neg (by simp [he])]
      cases hp : isVolumePartialMatch search v with
      | true => rw [(findVolumeScan_cons_sub search v vs c r he hp).1, ih c r]
      | false => rw [findVolumeScan_cons_none search v vs true c r he hp, ih c r]

theorem findVolumeScan_exact_run (search : String) (vs : List Volume) :
    ∀ (c : Nat) (r w : Volume),
      (vs.filter (isVolumeExactMatch search)).getLast? = some w →
      ∃ c', findVolumeScan search vs (false, c, r) = (true, c', w) := by
  induction vs with
  | nil => intro c r w h; simp at h
  | cons v vs ih =>
    intro c r w h
    cases he : isVolumeExactMatch search v with
    | true =>
      rw [List.filter_cons_of_pos he, getLast?_cons_eq] at h
      have hw := Option.some.inj h
      refine ⟨c, ?_⟩
      rw [findVolumeScan_cons_exact search v vs false c r he,
        findVolumeScan_exact_seen search vs c v, hw]
    | false =>
      rw [List.filter_cons_of_neg (by simp [he])] at h
      cases hp : isVolumePartialMatch search v with
      | true =>
        obtain ⟨c', hc⟩ := ih (c + 1) v w h
        exact ⟨c', by rw [(findVolumeScan_cons_sub search v vs c r he hp).2, hc]⟩
      | false =>
        obtain ⟨c', hc⟩ := ih c r w h
        exact ⟨c', by rw [findVolumeScan_cons_none search v vs false c r he hp, hc]⟩

theorem findVolumeScan_no_exact (search : String) (vs : List Volume) :
    ∀ (c : Nat) (r : Volume),
      (∀ v ∈ vs, isVolumeExactMatch search v = false) →
      findVolumeScan search vs (false, c, r)
        = (false, c + (vs.filter (isVolumePartialMatch search)).length,
           (vs.filter (isVolumePartialMatch search)).getLastD r) := by
  induction vs with
  | nil => intro c r _; rfl
  | cons v vs ih =>
    intro c r h
    have he : isVolumeExactMatch search v = false := h v (by simp)
    have hrest : ∀ u ∈ vs, isVolumeExactMatch search u = false :=
      fun u hu => h u (by simp [hu])
    cases hp : isVolumePartialMatch search v with
    | true =>
      rw [List.filter_cons_of_pos hp, List.getLastD_cons, List.length_cons,
        (findVolumeScan_cons_sub search v vs c r he hp).2, ih (c + 1) v hrest]
      have harith : c + 1 + (vs.filter (isVolumePartialMatch search)).length
          = c + ((vs.filter (isVolumePartialMatch search)).length + 1) := by omega
      rw [harith]
    | false =>
      rw [List.filter_cons_of_neg (by simp [hp]),
        findVolumeScan_cons_none search v vs false c r he hp, ih c r hrest]

theorem findFirewallLoop_found (search : String) (fws : List Firewall) :
    ∀ f : Firewall,
      findFirewallLoop search fws (some f)
        = if fws.filter (isFirewallMatch search) = [] then .ok (some f)
          else .error .MultipleMatchesError := by
  induction fws with
  | nil => intro f; simp [findFirewallLoop]
  | cons fw rest ih =>
    intro f
    cases hm : isFirewallMatch search fw with
    | true =>
      rw [List.filter_cons_of_pos hm]
      simp [findFirewallLoop, hm]
    | false =>
      rw [List.filter_cons_of_neg (by simp [hm])]
      have h1 : findFirewallLoop search (fw :: rest) (some f)
          = findFirewallLoop search rest (some f) := by
        simp [findFirewallLoop, hm]
      rw [h1, ih f]

theorem findFirewallLoop_start (search : String) (fws : List Firewall) :
    findFirewallLoop search fws none
      = match fws.filter (isFirewallMatch search) with
        | [] => .ok none
        | [f] => .ok (some f)
        | _ :: _ :: _ => .error .MultipleMatchesError := by
  induction fws with
  | nil => rfl
  | cons fw rest ih =>
    cases hm : isFirewallMatch search fw with
    | true =>
      rw [List.filter_cons_of_pos hm]
      have h1 : findFirewallLoop search (fw :: rest) none
          = findFirewallLoop search rest (some fw) := by
        simp [findFirewallLoop, hm]
      rw [h1, findFirewallLoop_found search rest fw]
      cases hf : rest.filter (isFirewallMatch search) with
      | nil => simp
      | cons a l => simp
    | false =>
      rw [List.filter_cons_of_neg (by simp [hm])]
      have h1 : findFirewallLoop search (fw :: rest) none
          = findFirewallLoop search rest none := by
        simp [findFirewallLoop, hm]
      rw [h1, ih]

theorem findFirewall_cases (firewalls : List Firewall) (search : String) :
    FindFirewall firewalls search
      = match firewalls.filter (isFirewallMatch search) with
        | [] => .error .ZeroMatchesError
        | [f] => .ok f
        | _ :: _ :: _ => .error .MultipleMatchesError := by
  unfold FindFirewall
  rw [findFirewallLoop_start search firewalls]
  cases hf : firewalls.filter (isFirewallMatch search) with
  | nil => rfl
  | cons a l =>
    cases l with
    | nil => rfl
    | cons b t => rfl

/-- The condition of the ListVolumesForCluster loop, collapsed to one test. -/
def clusterVolPred (cluster : KubernetesCluster) (vol : Volume) : Bool :=
  vol.ClusterID != "" && (cluster.ID == vol.ClusterID)

theorem clusterVolumesScan_cons_pos (cluster : KubernetesCluster) (vol : Volume)
    (rest : List Volume) (acc : GoSlice Volume) (hp : clusterVolPred cluster vol = true) :
    clusterVolumesScan cluster (vol :: rest) acc
      = clusterVolumesScan cluster rest (goAppend acc vol) := by
  obtain ⟨h1, h2⟩ := Bool.and_eq_true_iff.mp hp
  simp [clusterVolumesScan, h1, h2]

theorem clusterVolumesScan_cons_neg (cluster : KubernetesCluster) (vol : Volume)
    (rest : List Volume) (acc : GoSlice Volume) (hp : clusterVolPred cluster vol = false) :
    clusterVolumesScan cluster (vol :: rest) acc = clusterVolumesScan cluster rest acc := by
  cases h1 : vol.ClusterID != "" with
  | false => simp [clusterVolumesScan, h1]
  | true =>
    have h2 : (cluster.ID == vol.ClusterID) = false := by
      cases h2 : cluster.ID == vol.ClusterID
      · rfl
      · rw [clusterVolPred, h1, h2] at hp
        exact absurd hp (by simp)
    simp [clusterVolumesScan, h1, h2]

theorem clusterVolumesScan_some (cluster : KubernetesCluster) (vs : List Volume) :
    ∀ xs : List Volume,
      clusterVolumesScan cluster vs (some xs)
        = some (xs ++ vs.filter (clusterVolPred cluster)) := by
  induction vs with
  | nil => intro xs; simp [clusterVolumesScan]
  | cons vol rest ih =>
    intro xs
    cases hp : clusterVolPred cluster vol with
    | true =>
      rw [clusterVolumesScan_cons_pos cluster vol rest (some xs) hp,
        List.filter_cons_of_pos hp]
      show clusterVolumesScan cluster rest (some (xs ++ [vol])) = _
      rw [ih (xs ++ [vol]), List.append_assoc]
      rfl
    | false =>
      rw [clusterVolumesScan_cons_neg cluster vol rest (some xs) hp,
        List.filter_cons_of_neg (by simp [hp]), ih xs]

theorem clusterVolumesScan_none (cluster : KubernetesCluster) (vs : List Volume) :
    clusterVolumesScan cluster vs none
      = goFromList (vs.filter (clusterVolPred cluster)) := by
  induction vs with
  | nil => rfl
  | cons vol rest ih =>
    cases hp : clusterVolPred cluster vol with
    | true =>
      rw [clusterVolumesScan_cons_pos cluster vol rest none hp,
        List.filter_cons_of_pos hp]
      show clusterVolumesScan cluster rest (some [vol]) = _
      rw [clusterVolumesScan_some cluster rest [vol]]
      rfl
    | false =>
      rw [clusterVolumesScan_cons_neg cluster vol rest none hp,
        List.filter_cons_of_neg (by simp [hp]), ih]

/-- The condition of the ListDanglingVolumes loop, collapsed to one test. -/
def danglingPred (clusterIDs : List String) (volume : Volume) : Bool :=
  volume.ClusterID != "" && !(findString clusterIDs volume.ClusterID)

theorem danglingScan_cons_pos (ids : List String) (volume : Volume)
    (rest : List Volume) (acc : GoSlice Volume) (hp : danglingPred ids volume = true) :
    danglingScan ids (volume :: rest) acc
      = danglingScan ids rest (goAppend acc volume) := by
  obtain ⟨h1, h2⟩ := Bool.and_eq_true_iff.mp hp
  have h2' : findString ids volume.ClusterID = false := by
    cases hf : findString ids volume.ClusterID
    · rfl
    · rw [hf] at h2; exact absurd h2 (by simp)
  simp [danglingScan, h1, h2']

theorem danglingScan_cons_neg (ids : List String) (volume : Volume)
    (rest : List Volume) (acc : GoSlice Volume) (hp : danglingPred ids volume = false) :
    danglingScan ids (volume :: rest) acc = danglingScan ids rest acc := by
  cases h1 : volume.ClusterID != "" with
  | false => simp [danglingScan, h1]
  | true =>
    have h2 : findString ids volume.ClusterID = true := by
      cases h2 : findString ids volume.ClusterID
      · rw [danglingPred, h1, h2] at hp
        exact absurd hp (by simp)
      · rfl
    simp [danglingScan, h1, h2]

theorem danglingScan_some (ids : List String) (vs : List Volume) :
    ∀ xs : List Volume,
      danglingScan ids vs (some xs) = some (xs ++ vs.filter (danglingPred ids)) := by
  induction vs with
  | nil => intro xs; simp [danglingScan]
  | cons volume rest ih =>
    intro xs
    cases hp : danglingPred ids volume with
    | true =>
      rw [danglingScan_cons_pos ids volume rest (some xs) hp, List.filter_cons_of_pos hp]
      show danglingScan ids rest (some (xs ++ [volume])) = _
      rw [ih (xs ++ [volume]), List.append_assoc]
      rfl
    | false =>
      rw [danglingScan_cons_neg ids volume rest (some xs) hp,
        List.filter_cons_of_neg (by simp [hp]), ih xs]

/-! ### Claim theorems -/

/-- Claim C1: for every volume listing, FindVolume(search) gives exact matches
priority over substring matches: if any volume's id or name equals search
exactly, FindVolume returns an exact match — the last exact match in listing
order, since the scan does not stop early — even when other volumes contain
search as a proper substring of their id or name (no hypothesis restricts the
non-exact entries). -/
theorem findVolume_exact_match_priority (volumes : List Volume) (search : String)
    (v : Volume)
    (h : (volumes.filter (isVolumeExactMatch search)).getLast? = some v) :
    FindVolume volumes search = .ok v ∧ (v.Name = search ∨ v.ID = search) := by
  obtain ⟨c', hscan⟩ := findVolumeScan_exact_run search volumes 0 Volume.empty v h
  constructor
  · simp only [FindVolume]
    rw [hscan]
    rfl
  · have hv := List.mem_filter.mp (List.mem_of_getLast?_eq_some h)
    have hexact := hv.2
    simp only [isVolumeExactMatch, Bool.or_eq_true, beq_iff_eq] at hexact
    exact hexact

theorem findVolume_exact_match_priority_witness :
    FindVolume
      [⟨"id-1", "exact-name-plus", "", "", "", "", "", "", 0, false, 0⟩,
       ⟨"id-2", "exact-name", "", "", "", "", "", "", 0, false, 0⟩,
       ⟨"id-3", "also-exact-name-inside", "", "", "", "", "", "", 0, false, 0⟩]
      "exact-name"
      = .ok ⟨"id-2", "exact-name", "", "", "", "", "", "", 0, false, 0⟩
    ∧ ((⟨"id-2", "exact-name", "", "", "", "", "", "", 0, false, 0⟩ : Volume).Name = "exact-name"
       ∨ (⟨"id-2", "exact-name", "", "", "", "", "", "", 0, false, 0⟩ : Volume).ID = "exact-name") :=
  findVolume_exact_match_priority _ "exact-name" _ (by decide)

/-- Claim C2: for every volume listing containing no exact match for search,
FindVolume returns the unique substring match when exactly one exists, fails
with MultipleMatchesError when two or more exist, and fails with
ZeroMatchesError when none exists. -/
theorem findVolume_no_exact_resolution (volumes : List Volume) (search : String)
    (h : ∀ v ∈ volumes, v.Name ≠ search ∧ v.ID ≠ search) :
    FindVolume volumes search
      = match volumes.filter (isVolumePartialMatch search) with
        | [] => .error .ZeroMatchesError
        | [v] => .ok v
        | _ :: _ :: _ => .error .MultipleMatchesError := by
  have hne : ∀ v ∈ volumes, isVolumeExactMatch search v = false := by
    intro v hv
    obtain ⟨h1, h2⟩ := h v hv
    simp [isVolumeExactMatch, h1, h2]
  have hscan := findVolumeScan_no_exact search volumes 0 Volume.empty hne
  simp only [FindVolume]
  rw [hscan]
  cases hf : volumes.filter (isVolumePartialMatch search) with
  | nil => rfl
  | cons a l =>
    cases l with
    | nil => rfl
    | cons b t =>
      have h1 : ¬ ((false || ((0 + (a :: b :: t).length) == 1)) = true) := by
        simp
      have h2 : 0 + (a :: b :: t).length > 1 := by
        simp
      rw [if_neg h1, if_pos h2]

theorem findVolume_no_exact_resolution_witness :
    FindVolume
      [⟨"a1", "ambiguous-one", "", "", "", "", "", "", 0, false, 0⟩,
       ⟨"a2", "ambiguous-two", "", "", "", "", "", "", 0, false, 0⟩]
      "ambiguous"
      = .error .MultipleMatchesError :=
  findVolume_no_exact_resolution _ "ambiguous" (by decide)

/-- Claim C3: FindFirewall treats any second substring hit as ambiguous
without distinguishing exact from partial hits: with two or more hits it
fails with the multiple-matches error regardless of anything scanned later
(hence immediately at the second hit, even when a hit is an exact id or name
match — the hit predicate is plain substring containment); with exactly one
hit it returns that firewall; with zero hits it fails with the zero-matches
error. -/
theorem findFirewall_second_hit_ambiguous (firewalls : List Firewall) (search : String) :
    (2 ≤ (firewalls.filter (isFirewallMatch search)).length →
      ∀ rest : List Firewall,
        FindFirewall (firewalls ++ rest) search = .error .MultipleMatchesError)
    ∧ (∀ fw : Firewall, firewalls.filter (isFirewallMatch search) = [fw] →
        FindFirewall firewalls search = .ok fw)
    ∧ (firewalls.filter (isFirewallMatch search) = [] →
        FindFirewall firewalls search = .error .ZeroMatchesError) := by
  refine ⟨?_, ?_, ?_⟩
  · intro hlen rest
    rw [findFirewall_cases]
    have hge : 2 ≤ ((firewalls ++ rest).filter (isFirewallMatch search)).length := by
      rw [List.filter_append, List.length_append]
      omega
    cases hf : (firewalls ++ rest).filter (isFirewallMatch search) with
    | nil =>
      rw [hf] at hge
      simp at hge
    | cons a l =>
      cases l with
      | nil =>
        rw [hf] at hge
        simp at hge
      | cons b t => rfl
  · intro fw hf
    rw [findFirewall_cases, hf]
  · intro hf
    rw [findFirewall_cases, hf]

theorem findFirewall_second_hit_ambiguous_witness :
    FindFirewall
      ([⟨"fw-1", "exact", "", "", ""⟩, ⟨"fw-2", "exact-plus", "", "", ""⟩]
        ++ [⟨"fw-3", "other", "", "", ""⟩]) "exact"
      = .error .MultipleMatchesError
    ∧ FindFirewall [⟨"fw-9", "lonely", "", "", ""⟩] "lone"
      = .ok ⟨"fw-9", "lonely", "", "", ""⟩ :=
  ⟨(findFirewall_second_hit_ambiguous
      [⟨"fw-1", "exact", "", "", ""⟩, ⟨"fw-2", "exact-plus", "", "", ""⟩] "exact").1
      (by decide) [⟨"fw-3", "other", "", "", ""⟩],
   (findFirewall_second_hit_ambiguous [⟨"fw-9", "lonely", "", "", ""⟩] "lone").2.1
      ⟨"fw-9", "lonely", "", "", ""⟩ (by decide)⟩

/-- Claim C4, counterexample to the claim as stated: a JSON null body is a
successful transport response that decodes to zero elements (json.Decode
sets the slice to nil and reports no error), yet both ListVolumes and
ListFirewalls return the nil slice, not a non-null empty sequence — so
"never null" fails on the program. -/
theorem list_collections_null_body_counterexample :
    ListVolumes (.ok .jsonNull) = .ok none
    ∧ ListFirewalls (.ok .jsonNull) = .ok none
    ∧ (goElems (none : GoSlice Volume)).length = 0
    ∧ (none : GoSlice Volume) ≠ some [] := by
  exact ⟨rfl, rfl, rfl, by simp⟩

/-- Claim C4, amended: for every successful transport response, ListVolumes
and ListFirewalls return the decoded collection in server response order;
when the response body is an empty JSON array they return a non-null empty
sequence; when the response body is JSON null, however, they succeed with a
nil collection. -/
theorem list_collections_order_and_empty_array :
    (∀ vs : List Volume, ListVolumes (.ok (.array vs)) = .ok (some vs))
    ∧ (∀ fs : List Firewall, ListFirewalls (.ok (.array fs)) = .ok (some fs))
    ∧ ListVolumes (.ok (.array [])) = .ok (some [])
    ∧ ListFirewalls (.ok (.array [])) = .ok (some [])
    ∧ ListVolumes (.ok .jsonNull) = .ok none
    ∧ ListFirewalls (.ok .jsonNull) = .ok none := by
  exact ⟨fun vs => rfl, fun fs => rfl, rfl, rfl, rfl, rfl⟩

theorem danglingPred_eq_decide (clusters : List KubernetesCluster) (v : Volume) :
    danglingPred (clusters.map fun cluster => cluster.ID) v
      = decide (v.ClusterID ≠ "" ∧ ∀ c ∈ clusters, c.ID ≠ v.ClusterID) := by
  rw [Bool.eq_iff_iff, decide_eq_true_eq]
  constructor
  · intro hp
    obtain ⟨h1, h2⟩ := Bool.and_eq_true_iff.mp hp
    refine ⟨by simpa using h1, ?_⟩
    intro c hcmem hcid
    have hmem : v.ClusterID ∈ clusters.map fun cluster => cluster.ID :=
      List.mem_map.mpr ⟨c, hcmem, hcid⟩
    rw [(findString_eq_true_iff _ _).mpr hmem] at h2
    simp at h2
  · rintro ⟨h1, h2⟩
    have hf : findString (clusters.map fun cluster => cluster.ID) v.ClusterID = false := by
      cases hf : findString (clusters.map fun cluster => cluster.ID) v.ClusterID
      · rfl
      · obtain ⟨c, hcmem, hcid⟩ := List.mem_map.mp ((findString_eq_true_iff _ _).mp hf)
        exact absurd hcid (h2 c hcmem)
    rw [danglingPred, hf]
    simp [h1]

/-- Claim C5: for every cluster listing and volume listing,
ListDanglingVolumes returns exactly those volumes whose cluster_id is
non-empty and does not equal the id of any listed cluster, in the order of
the underlying volume listing (a filter of the listing, so volumes with an
empty cluster_id are never included); the embedding is purely functional, so
the operation mutates nothing. -/
theorem listDanglingVolumes_exact (clusters : List KubernetesCluster)
    (volumes : List Volume) :
    ListDanglingVolumes clusters volumes
      = some (volumes.filter
          (fun v => decide (v.ClusterID ≠ "" ∧ ∀ c ∈ clusters, c.ID ≠ v.ClusterID))) := by
  simp only [ListDanglingVolumes]
  rw [show (goMake : GoSlice Volume) = some [] from rfl, danglingScan_some,
    List.nil_append]
  congr 1
  exact List.filter_congr fun v _ => danglingPred_eq_decide clusters v

/-- Claim C6, amended: ListVolumesForCluster propagates the collaborator's
NotFoundError when cluster lookup fails; otherwise it returns exactly those
volumes whose cluster_id is non-empty and equal to the resolved cluster's
id, in listing order.  (Amendment: the source additionally requires the
volume's cluster_id to be non-empty, which departs from the claim exactly
when the resolved cluster's id is the empty string.) -/
theorem listVolumesForCluster_resolution :
    (∀ volumesResult : Except CivoError (GoSlice Volume),
        ListVolumesForCluster (.error .NotFoundError) volumesResult
          = .error .NotFoundError)
    ∧ (∀ (cluster : KubernetesCluster) (vs : List Volume),
        ListVolumesForCluster (.ok cluster) (.ok (some vs))
          = .ok (goFromList (vs.filter
              (fun v => decide (v.ClusterID ≠ "" ∧ v.ClusterID = cluster.ID))))) := by
  constructor
  · intro volumesResult
    rfl
  · intro cluster vs
    simp only [ListVolumesForCluster, goElems, goNil]
    rw [clusterVolumesScan_none]
    congr 2
    apply List.filter_congr
    intro v _
    rw [Bool.eq_iff_iff, decide_eq_true_eq]
    constructor
    · intro hp
      obtain ⟨h1, h2⟩ := Bool.and_eq_true_iff.mp hp
      exact ⟨by simpa using h1, (beq_iff_eq.mp h2).symm⟩
    · rintro ⟨h1, h2⟩
      rw [clusterVolPred, ← h2]
      simp [h1]

/-- Claim C6, counterexample to the claim as stated: with a resolved cluster
whose id is the empty string and a volume whose cluster_id is the empty
string, the volume's cluster_id equals the resolved cluster's id, yet
ListVolumesForCluster returns the nil slice, which does not contain the
volume — so "exactly those volumes whose cluster_id equals the resolved
cluster's id" fails on the code. -/
theorem listVolumesForCluster_counterexample :
    ((⟨"vol-1", "v", "", "", "", "", "", "", 0, false, 0⟩ : Volume).ClusterID
        = (⟨""⟩ : KubernetesCluster).ID)
    ∧ ListVolumesForCluster (.ok ⟨""⟩)
        (.ok (some [⟨"vol-1", "v", "", "", "", "", "", "", 0, false, 0⟩]))
        = .ok none
    ∧ (⟨"vol-1", "v", "", "", "", "", "", "", 0, false, 0⟩ : Volume)
        ∉ goElems (none : GoSlice Volume) := by
  exact ⟨rfl, rfl, by simp [goElems]⟩

/-- Claim C7: for every config whose firewall_id is the empty string,
NewFirewallRule fails with the validation error and issues no network
request — the request log is empty and the result is the same for every
transport, so the transport is never invoked. -/
theorem newFirewallRule_empty_id_no_request
    (send : Request → Except CivoError RuleBody) (r : FirewallRuleConfig)
    (h : r.FirewallID = "") :
    NewFirewallRule send r
      = ([], .error (.ValidationError "the firewall ID is empty")) := by
  unfold NewFirewallRule
  rw [h]
  rfl

theorem newFirewallRule_empty_id_no_request_witness :
    NewFirewallRule (fun _ => .error .RequestError)
      ⟨"", "tcp", "80", "80", ["0.0.0.0/0"], "ingress", ""⟩
      = ([], .error (.ValidationError "the firewall ID is empty")) :=
  newFirewallRule_empty_id_no_request _ _ rfl

/-- Claim C8: DeleteVolumeAndAllSnapshot(id) issues exactly one DELETE
request, to /v2/volumes/{id}?delete_snapshot=true (carrying the cascade
flag), a path distinct from the /v2/volumes/{id} issued by DeleteVolume(id);
both decode and return the simple acknowledgment response on success. -/
theorem deleteVolumeAndAllSnapshot_one_request
    (send : Request → Except CivoError SimpleBody) (id : String) :
    (DeleteVolumeAndAllSnapshot send id).1
        = [{ method := .DELETE, path := "/v2/volumes/" ++ id ++ "?delete_snapshot=true" }]
    ∧ (DeleteVolume send id).1 = [{ method := .DELETE, path := "/v2/volumes/" ++ id }]
    ∧ ("/v2/volumes/" ++ id ++ "?delete_snapshot=true") ≠ ("/v2/volumes/" ++ id)
    ∧ (∀ s : SimpleResponse,
        send { method := .DELETE, path := "/v2/volumes/" ++ id ++ "?delete_snapshot=true" }
            = .ok (.obj s) →
        (DeleteVolumeAndAllSnapshot send id).2 = .ok s)
    ∧ (∀ s : SimpleResponse,
        send { method := .DELETE, path := "/v2/volumes/" ++ id } = .ok (.obj s) →
        (DeleteVolume send id).2 = .ok s) := by
  refine ⟨rfl, rfl, ?_, ?_, ?_⟩
  · intro heq
    have hlen := congrArg String.length heq
    simp only [String.length_append] at hlen
    have h12 : ("/v2/volumes/" : String).length = 12 := rfl
    have h21 : ("?delete_snapshot=true" : String).length = 21 := rfl
    rw [h12, h21] at hlen
    omega
  · intro s hs
    simp only [DeleteVolumeAndAllSnapshot]
    rw [hs]
    rfl
  · intro s hs
    simp only [DeleteVolume]
    rw [hs]
    rfl

theorem deleteVolumeAndAllSnapshot_one_request_witness :
    (DeleteVolumeAndAllSnapshot (fun _ => .ok (.obj ⟨"i", "n", "success"⟩)) "vol-1").2
        = .ok ⟨"i", "n", "success"⟩
    ∧ (DeleteVolumeAndAllSnapshot (fun _ => .ok (.obj ⟨"i", "n", "success"⟩)) "vol-1").1
        = [{ method := .DELETE, path := "/v2/volumes/" ++ "vol-1" ++ "?delete_snapshot=true" }] :=
  ⟨(deleteVolumeAndAllSnapshot_one_request
      (fun _ => .ok (.obj ⟨"i", "n", "success"⟩)) "vol-1").2.2.2.1
      ⟨"i", "n", "success"⟩ rfl,
   (deleteVolumeAndAllSnapshot_one_request
      (fun _ => .ok (.obj ⟨"i", "n", "success"⟩)) "vol-1").1⟩

/-- Claim C9: when the cluster resolves but no listed volume's cluster_id
equals the resolved cluster's id, ListVolumesForCluster returns the nil
slice — unlike ListVolumes and ListFirewalls, which return an allocated
empty sequence for zero results; the nil slice and the allocated empty slice
are distinct values. -/
theorem listVolumesForCluster_nil_on_zero_matches (cluster : KubernetesCluster)
    (vs : List Volume) (h : ∀ v ∈ vs, v.ClusterID ≠ cluster.ID) :
    ListVolumesForCluster (.ok cluster) (.ok (some vs)) = .ok none
    ∧ ListVolumes (.ok (.array [])) = .ok (some [])
    ∧ ListFirewalls (.ok (.array [])) = .ok (some [])
    ∧ (none : GoSlice Volume) ≠ some [] := by
  refine ⟨?_, rfl, rfl, by simp⟩
  simp only [ListVolumesForCluster, goElems, goNil]
  rw [clusterVolumesScan_none]
  have hf : vs.filter (clusterVolPred cluster) = [] := by
    apply List.filter_eq_nil_iff.mpr
    intro v hv hp
    obtain ⟨h1, h2⟩ := Bool.and_eq_true_iff.mp hp
    exact h v hv (beq_iff_eq.mp h2).symm
  rw [hf]
  rfl

theorem listVolumesForCluster_nil_on_zero_matches_witness :
    ListVolumesForCluster (.ok ⟨"cluster-a"⟩)
      (.ok (some [⟨"v1", "n", "", "cluster-b", "", "", "", "", 0, false, 0⟩]))
      = .ok none :=
  (listVolumesForCluster_nil_on_zero_matches ⟨"cluster-a"⟩ _ (by decide)).1

/-- Claim C10: the empty search string matches every entry, since every
string contains the empty substring: FindFirewall("") on two or more
firewalls fails with the multiple-matches error; FindVolume("") on two or
more volumes none of whose id or name is itself empty fails with
MultipleMatchesError; on a single-entry listing each returns that entry. -/
theorem find_empty_search_behavior :
    (∀ (f1 f2 : Firewall) (rest : List Firewall),
        FindFirewall (f1 :: f2 :: rest) "" = .error .MultipleMatchesError)
    ∧ (∀ (v1 v2 : Volume) (rest : List Volume),
        (∀ v ∈ v1 :: v2 :: rest, v.ID ≠ "" ∧ v.Name ≠ "") →
        FindVolume (v1 :: v2 :: rest) "" = .error .MultipleMatchesError)
    ∧ (∀ fw : Firewall, FindFirewall [fw] "" = .ok fw)
    ∧ (∀ v : Volume, FindVolume [v] "" = .ok v) := by
  refine ⟨?_, ?_, ?_, ?_⟩
  · intro f1 f2 rest
    have h1 : isFirewallMatch "" f1 = true := by
      simp [isFirewallMatch, strContains_empty_sub]
    have h2 : isFirewallMatch "" f2 = true := by
      simp [isFirewallMatch, strContains_empty_sub]
    simp [FindFirewall, findFirewallLoop, h1, h2]
  · intro v1 v2 rest h
    have hne : ∀ v ∈ v1 :: v2 :: rest, isVolumeExactMatch "" v = false := by
      intro v hv
      obtain ⟨hid, hname⟩ := h v hv
      simp [isVolumeExactMatch, hid, hname]
    have hall : (v1 :: v2 :: rest).filter (isVolumePartialMatch "") = v1 :: v2 :: rest := by
      apply List.filter_eq_self.mpr
      intro v hv
      simp [isVolumePartialMatch, strContains_empty_sub]
    have hscan := findVolumeScan_no_exact "" (v1 :: v2 :: rest) 0 Volume.empty hne
    rw [hall] at hscan
    simp only [FindVolume]
    rw [hscan]
    have hc1 : ¬ ((false || ((0 + (v1 :: v2 :: rest).length) == 1)) = true) := by simp
    have hc2 : 0 + (v1 :: v2 :: rest).length > 1 := by simp
    rw [if_neg hc1, if_pos hc2]
  · intro fw
    have h1 : isFirewallMatch "" fw = true := by
      simp [isFirewallMatch, strContains_empty_sub]
    simp [FindFirewall, findFirewallLoop, h1]
  · intro v
    cases he : isVolumeExactMatch "" v with
    | true =>
      simp only [FindVolume]
      rw [findVolumeScan_cons_exact "" v [] false 0 Volume.empty he]
      rfl
    | false =>
      have hp : isVolumePartialMatch "" v = true := by
        simp [isVolumePartialMatch, strContains_empty_sub]
      simp only [FindVolume]
      rw [(findVolumeScan_cons_sub "" v [] 0 Volume.empty he hp).2]
      rfl

theorem find_empty_search_behavior_witness :
    FindVolume
      [⟨"w1", "n1", "", "", "", "", "", "", 0, false, 0⟩,
       ⟨"w2", "n2", "", "", "", "", "", "", 0, false, 0⟩] ""
      = .error .MultipleMatchesError
    ∧ FindFirewall [⟨"g1", "m1", "", "", ""⟩] "" = .ok ⟨"g1", "m1", "", "", ""⟩ :=
  ⟨find_empty_search_behavior.2.1 _ _ [] (by decide),
   find_empty_search_behavior.2.2.1 _⟩

end Civogo
